import Mathlib

/-!
# Verification of the Blackjack simulator (`blackjack.py`)

A shallow embedding of the simulator's core: the shoe, hand evaluation,
the automated round engine `jugar_mano_basica`, the per-round betting
wrapper `apuesta_con_opciones`, and the bankroll simulation
`ruina_del_jugador`.  Card values are natural numbers (ace = 1, face
cards = 10), money and payout factors are rationals, and the fallible
draw `tomar_carta` returns `Except` (the Python code raises
`IndexError`).  `random.shuffle` is modelled by an oracle (`Shuffler`)
giving the outcome of each successive shuffle; all definitions are
executable.
-/

namespace Blackjack

/- Let the elaborator evaluate rational arithmetic when checking
concrete simulation runs by `decide` (the kernel already can). -/
attribute [local semireducible] Rat.mul Rat.add Rat.sub Rat.inv

/-- Decidable equality for `Except`, so that concrete runs of the
fallible operations can be checked by `decide`. -/
instance instDecEqExcept {ε α : Type} [DecidableEq ε] [DecidableEq α] :
    DecidableEq (Except ε α)
  | .error e, .error f => decidable_of_iff (e = f) (by simp)
  | .error _, .ok _ => isFalse (by simp)
  | .ok _, .error _ => isFalse (by simp)
  | .ok a, .ok b => decidable_of_iff (a = b) (by simp)

/-- Oracle for `random.shuffle`: `sh i` is the contents of the shoe
produced by the `i`-th call to `crear_mazo_partida` in the current
run. -/
def Shuffler : Type := Nat → List Nat

/-- `crear_mazo`: one deck of 52 card values, no suits
(`[1,...,9,10,10,10,10] * 4`). -/
def crear_mazo : List Nat :=
  List.flatten (List.replicate 4 [1, 2, 3, 4, 5, 6, 7, 8, 9, 10, 10, 10, 10])

/-- A shuffler is faithful to `random.shuffle` when every produced shoe
is a permutation of `n_barajas` decks (`crear_mazo() * n_barajas`). -/
def ValidShuffler (sh : Shuffler) (n_barajas : Nat) : Prop :=
  ∀ i, List.Perm (sh i) (List.flatten (List.replicate n_barajas crear_mazo))

/-- `crear_mazo_partida(n_barajas)`: build and shuffle a fresh
`n_barajas`-deck shoe.  The shuffle outcome is read off the oracle at
the current index `i`, which then advances. -/
def crear_mazo_partida (sh : Shuffler) (n_barajas : Nat) (i : Nat) : List Nat × Nat :=
  (sh i, i + 1)

/-- `ensure_mazo(mazo, n_barajas, threshold=15)`: reshuffle the shoe if
it is `None` or holds fewer than `threshold` cards; otherwise keep it. -/
def ensure_mazo (sh : Shuffler) (mazo : Option (List Nat)) (n_barajas threshold i : Nat) :
    List Nat × Nat :=
  match mazo with
  | none => crear_mazo_partida sh n_barajas i
  | some m => if m.length < threshold then crear_mazo_partida sh n_barajas i else (m, i)

/-- `tomar_carta(mazo)`: `mazo.pop()` — remove and return the LAST card;
raises on an empty shoe. -/
def tomar_carta (mazo : List Nat) : Except String (Nat × List Nat) :=
  match mazo.getLast? with
  | none => .error "El mazo está vacío. Asegúrate de reshuffle antes de tomar."
  | some c => .ok (c, mazo.dropLast)

/-- The `while total > 21 and aces_remaining > 0: total -= 10` loop of
`contar_puntos`, structurally recursive on the remaining aces.  Returns
the final total and the number of reductions performed. -/
def reduceAces : Nat → Nat → Nat × Nat
  | total, 0 => (total, 0)
  | total, n + 1 =>
    if 21 < total then
      let p := reduceAces (total - 10) n
      (p.1, p.2 + 1)
    else (total, 0)

/-- `contar_puntos(mano)`: sum the hand counting each ace as 11, then
reduce aces one at a time while the total exceeds 21.  Returns the total
and the soft flag (`ace11_count > 0`). -/
def contar_puntos (mano : List Nat) : Nat × Bool :=
  let ta := mano.foldl (fun (p : Nat × Nat) c =>
    if c = 1 then (p.1 + 11, p.2 + 1) else (p.1 + c, p.2)) (0, 0)
  let r := reduceAces ta.1 ta.2
  let ace11_count := ta.2 - r.2
  (r.1, decide (0 < ace11_count))

/-- `es_blackjack(mano)`: exactly two cards totalling 21. -/
def es_blackjack (mano : List Nat) : Bool :=
  mano.length == 2 && (contar_puntos mano).1 == 21

/-- The outcome codes returned by `jugar_mano_basica`. -/
inductive Resultado where
  | player
  | dealer
  | push
  | player_blackjack
  | surrender
deriving DecidableEq, Repr

/-- The tuple `(resultado_codigo, apuesta_multiplier, jugador, crupier,
mazo)` returned by `jugar_mano_basica`, plus the advanced shuffle-oracle
index. -/
structure ManoResult where
  resultado : Resultado
  factor : ℚ
  jugador : List Nat
  crupier : List Nat
  mazo : List Nat
  rngIdx : Nat
deriving DecidableEq, Repr

/-- The payout factor of the final comparison block for each outcome in
an undoubled round (`1` player win, `-1` dealer win, `0` push). -/
def settle_base : Resultado → ℚ
  | .player => 1
  | .dealer => -1
  | _ => 0

/-- The final comparison block of `jugar_mano_basica`: compare totals
and return the outcome with the factor scaled by `apuesta_factor`. -/
def comparar (apuesta_factor : ℚ) (jugador crupier mazo : List Nat) (i : Nat) : ManoResult :=
  let pj := (contar_puntos jugador).1
  let pc := (contar_puntos crupier).1
  if 21 < pj then ⟨.dealer, -1 * apuesta_factor, jugador, crupier, mazo, i⟩
  else if 21 < pc then ⟨.player, 1 * apuesta_factor, jugador, crupier, mazo, i⟩
  else if pc < pj then ⟨.player, 1 * apuesta_factor, jugador, crupier, mazo, i⟩
  else if pj < pc then ⟨.dealer, -1 * apuesta_factor, jugador, crupier, mazo, i⟩
  else ⟨.push, 0, jugador, crupier, mazo, i⟩

/-- The player's automatic hit loop: draw while the total is below
`limite_jugador`; after each draw, a total above 21 ends the loop with
the bust flag set.  `fuel` strictly exceeds the shoe size at every call
site and each recursive call removes one card from the shoe, so the
fuel-out branch is unreachable. -/
def player_hits (limite_jugador : Nat) : Nat → List Nat → List Nat →
    Except String (List Nat × List Nat × Bool)
  | 0, _, _ => .error "fuel agotado (inalcanzable)"
  | fuel + 1, jugador, mazo =>
    if (contar_puntos jugador).1 < limite_jugador then
      match tomar_carta mazo with
      | .error e => .error e
      | .ok (c, mazo1) =>
        let jugador1 := jugador ++ [c]
        if 21 < (contar_puntos jugador1).1 then .ok (jugador1, mazo1, true)
        else player_hits limite_jugador fuel jugador1 mazo1
    else .ok (jugador, mazo, false)

/-- The dealer's draw loop: draw while the total is below 17, or equal
to 17, soft, and the hit-on-soft-17 rule is active.  Fuel as in
`player_hits`. -/
def dealer_turn (stand_on_soft17 : Bool) : Nat → List Nat → List Nat →
    Except String (List Nat × List Nat)
  | 0, _, _ => .error "fuel agotado (inalcanzable)"
  | fuel + 1, crupier, mazo =>
    let pc := (contar_puntos crupier).1
    let es_suave_c := (contar_puntos crupier).2
    if pc < 17 ∨ (pc = 17 ∧ es_suave_c = true ∧ stand_on_soft17 = false) then
      match tomar_carta mazo with
      | .error e => .error e
      | .ok (c, mazo1) => dealer_turn stand_on_soft17 fuel (crupier ++ [c]) mazo1
    else .ok (crupier, mazo)

/-- After the player's hand is final: the dealer plays (only if the
player's total is at most 21) and the hands are compared.  The
`apuesta_factor` is `2` after a double down and `1` otherwise. -/
def despues_del_jugador (apuesta_factor : ℚ) (stand_on_soft17 : Bool)
    (jugador crupier mazo : List Nat) (i : Nat) : Except String ManoResult :=
  if (contar_puntos jugador).1 ≤ 21 then
    match dealer_turn stand_on_soft17 (mazo.length + 1) crupier mazo with
    | .error e => .error e
    | .ok (crupier1, mazo1) => .ok (comparar apuesta_factor jugador crupier1 mazo1 i)
  else .ok (comparar apuesta_factor jugador crupier mazo i)

/-- `jugar_mano_basica` after the initial deal: natural-blackjack check,
then the automated surrender and double-down decisions, then the hit
loop, the dealer's turn and the final comparison. -/
def jugar_tras_reparto (limite_jugador : Nat)
    (stand_on_soft17 allow_double allow_surrender automated : Bool)
    (jugador crupier mazo : List Nat) (i : Nat) : Except String ManoResult :=
  if es_blackjack jugador || es_blackjack crupier then
    if es_blackjack jugador && es_blackjack crupier then
      .ok ⟨.push, 0, jugador, crupier, mazo, i⟩
    else if es_blackjack jugador then
      .ok ⟨.player_blackjack, 3 / 2, jugador, crupier, mazo, i⟩
    else
      .ok ⟨.dealer, -1, jugador, crupier, mazo, i⟩
  else
    let pj := (contar_puntos jugador).1
    let upcard := crupier.headI
    if allow_surrender && automated && (pj == 16) && (upcard == 10) then
      .ok ⟨.surrender, -(1 / 2), jugador, crupier, mazo, i⟩
    else if allow_double && automated && (pj == 9 || pj == 10 || pj == 11) then
      match tomar_carta mazo with
      | .error e => .error e
      | .ok (carta, mazo1) =>
        let jugador1 := jugador ++ [carta]
        if 21 < (contar_puntos jugador1).1 then
          .ok ⟨.dealer, -1 * 2, jugador1, crupier, mazo1, i⟩
        else despues_del_jugador 2 stand_on_soft17 jugador1 crupier mazo1 i
    else
      match player_hits limite_jugador (mazo.length + 1) jugador mazo with
      | .error e => .error e
      | .ok (jugador1, mazo1, busted) =>
        if busted then .ok ⟨.dealer, -1 * 1, jugador1, crupier, mazo1, i⟩
        else despues_del_jugador 1 stand_on_soft17 jugador1 crupier mazo1 i

/-- `jugar_mano_basica`: ensure the shoe, deal two cards to the player
and then two to the dealer, and play the round. -/
def jugar_mano_basica (sh : Shuffler) (mazo0 : Option (List Nat))
    (n_barajas limite_jugador : Nat)
    (stand_on_soft17 allow_double allow_surrender automated : Bool)
    (reshuffle_threshold i0 : Nat) : Except String ManoResult :=
  match ensure_mazo sh mazo0 n_barajas reshuffle_threshold i0 with
  | (mazo, i) =>
    match tomar_carta mazo with
    | .error e => .error e
    | .ok (c1, mazo1) =>
      match tomar_carta mazo1 with
      | .error e => .error e
      | .ok (c2, mazo2) =>
        match tomar_carta mazo2 with
        | .error e => .error e
        | .ok (c3, mazo3) =>
          match tomar_carta mazo3 with
          | .error e => .error e
          | .ok (c4, mazo4) =>
            jugar_tras_reparto limite_jugador stand_on_soft17 allow_double
              allow_surrender automated [c1, c2] [c3, c4] mazo4 i

/-- The tuple `(nuevo_dinero, mazo, bet_used, resultado_codigo, jugador,
crupier)` returned by `apuesta_con_opciones`, plus the shuffle-oracle
index. -/
structure ApuestaResult where
  dinero : ℚ
  mazo : List Nat
  bet : ℚ
  resultado : Resultado
  jugador : List Nat
  crupier : List Nat
  rngIdx : Nat
deriving DecidableEq, Repr

/-- `apuesta_con_opciones`: pick the bet (the previous bet under
Martingale when one exists, the base stake otherwise), play one hand in
automated mode, and apply the returned payout factor to the bankroll. -/
def apuesta_con_opciones (sh : Shuffler) (mazo : Option (List Nat))
    (n_barajas limite_jugador : Nat) (dinero_total dinero_apostado : ℚ)
    (stand_on_soft17 allow_double allow_surrender : Bool)
    (betting_strategy : String) (last_bet : Option ℚ)
    (reshuffle_threshold i : Nat) : Except String ApuestaResult :=
  let bet := match last_bet with
    | some lb => if betting_strategy = "martingale" then lb else dinero_apostado
    | none => dinero_apostado
  match jugar_mano_basica sh mazo n_barajas limite_jugador stand_on_soft17
      allow_double allow_surrender true reshuffle_threshold i with
  | .error e => .error e
  | .ok m =>
    let dinero :=
      if 0 < m.factor then dinero_total + bet * m.factor
      else if m.factor < 0 then dinero_total + bet * m.factor
      else dinero_total
    .ok ⟨dinero, m.mazo, bet, m.resultado, m.jugador, m.crupier, m.rngIdx⟩

/-- The configuration parameters of `ruina_del_jugador` that stay fixed
across the simulation loop. -/
structure SimCfg where
  n_barajas : Nat
  limite_jugador : Nat
  max_rondas : Nat
  stand_on_soft17 : Bool
  allow_double : Bool
  allow_surrender : Bool
  betting_strategy : String
  reshuffle_threshold : Nat
  base_bet : ℚ
deriving DecidableEq, Repr

/-- The mutable state of the `ruina_del_jugador` loop. -/
structure SimState where
  mazo : List Nat
  dinero : ℚ
  evolucion : List ℚ
  rondas : Nat
  current_bet : ℚ
  rngIdx : Nat
deriving DecidableEq, Repr

/-- One iteration of the `ruina_del_jugador` loop: cap the bet at the
bankroll, play a betted hand, record the new bankroll, count the round
and (under Martingale) double the bet after a bankroll drop or reset it
to the base bet otherwise. -/
def ruina_step (sh : Shuffler) (cfg : SimCfg) (s : SimState) : Except String SimState :=
  let cb := if s.dinero < s.current_bet then s.dinero else s.current_bet
  match apuesta_con_opciones sh (some s.mazo) cfg.n_barajas cfg.limite_jugador
      s.dinero cb cfg.stand_on_soft17 cfg.allow_double cfg.allow_surrender
      cfg.betting_strategy (some cb) cfg.reshuffle_threshold s.rngIdx with
  | .error e => .error e
  | .ok r =>
    let next_bet :=
      if cfg.betting_strategy = "martingale" then
        if r.dinero < s.dinero then min (cb * 2) r.dinero else cfg.base_bet
      else cb
    .ok ⟨r.mazo, r.dinero, s.evolucion ++ [r.dinero], s.rondas + 1, next_bet, r.rngIdx⟩

/-- The `while dinero > 0 and rondas < max_rondas` loop of
`ruina_del_jugador`.  `fuel` satisfies `max_rondas ≤ rondas + fuel` at
every call site and each iteration increments `rondas`, so when fuel
runs out the loop condition is already false and returning the state
matches the Python loop exit. -/
def ruina_loop (sh : Shuffler) (cfg : SimCfg) : Nat → SimState → Except String SimState
  | 0, s => .ok s
  | fuel + 1, s =>
    if 0 < s.dinero ∧ s.rondas < cfg.max_rondas then
      match ruina_step sh cfg s with
      | .error e => .error e
      | .ok s1 => ruina_loop sh cfg fuel s1
    else .ok s

/-- `ruina_del_jugador`: build a fresh shoe, then simulate rounds until
the bankroll is exhausted or `max_rondas` is reached, returning the
bankroll-evolution list. -/
def ruina_del_jugador (sh : Shuffler) (n_barajas limite_jugador : Nat)
    (dinero_total dinero_apostado : ℚ) (max_rondas : Nat)
    (stand_on_soft17 allow_double allow_surrender : Bool)
    (betting_strategy : String) (reshuffle_threshold : Nat) :
    Except String (List ℚ) :=
  match crear_mazo_partida sh n_barajas 0 with
  | (mazo, i) =>
    let cfg : SimCfg := ⟨n_barajas, limite_jugador, max_rondas, stand_on_soft17,
      allow_double, allow_surrender, betting_strategy, reshuffle_threshold, dinero_apostado⟩
    match ruina_loop sh cfg max_rondas ⟨mazo, dinero_total, [dinero_total], 0, dinero_apostado, i⟩ with
    | .error e => .error e
    | .ok s => .ok s.evolucion

/-! ## Concrete shoes and states used by witnesses and counterexamples.
The shuffle oracle is only consulted on a reshuffle; the 15- and 16-card
shoes below are at or above the default threshold, so rounds play from
them unchanged. -/

/-- A shuffle oracle that is never consulted in the scenarios below. -/
def shuffler0 : Shuffler := fun _ => []

/-- 16 ten-valued cards: both hands get 20 and the round is a push. -/
def mazoDiez : List Nat := List.replicate 16 10

/-- Shuffle oracle constantly producing `mazoDiez`. -/
def shDiez : Shuffler := fun _ => mazoDiez

/-- Draw order 10, 9, 8, 10 then eleven twos: player 19 beats dealer 18. -/
def mazoOrden : List Nat := List.replicate 11 2 ++ [10, 8, 9, 10]

/-- Draw order 1, 10, 10, 1: both hands are naturals. -/
def mazoNat : List Nat := List.replicate 11 3 ++ [1, 10, 10, 1]

/-- Draw order 10, 6, 10, 8: player 16 against a ten up-card. -/
def mazoRinde : List Nat := List.replicate 11 3 ++ [8, 10, 6, 10]

/-- Draw order 5, 6, 10, 9, 10: player 11 doubles into 21 against 19. -/
def mazoDobla : List Nat := List.replicate 10 3 ++ [10, 9, 10, 6, 5]

/-- Draw order 5, 6, 10, 9, 2: player 11 doubles into 13, loses twice
the stake. -/
def mazoPierdeDoble : List Nat := List.replicate 10 3 ++ [2, 9, 10, 6, 5]

/-- Draw order 10, 6, 10, 9 then tens: the player busts hitting 16. -/
def mazoPierde : List Nat := List.replicate 11 10 ++ [9, 10, 6, 10]

/-- Shuffle oracle constantly producing `mazoPierde`. -/
def shPierde : Shuffler := fun _ => mazoPierde

/-- A 15-card shoe of aces: the round needs 16 cards. -/
def mazoAses : List Nat := List.replicate 15 1

/-! ## Hand evaluation lemmas -/

/-- Popping from a shoe written as `l ++ [a]` yields `a` and leaves `l`. -/
theorem tomar_carta_concat (l : List Nat) (a : Nat) :
    tomar_carta (l ++ [a]) = .ok (a, l) := by
  simp [tomar_carta, List.getLast?_concat, List.dropLast_concat]

/-- Closed form of the ace-reduction loop: starting from a raw sum `s`
plus `10` for each of `n` elevated aces, the loop keeps exactly
`min n ((21 - s) / 10)` aces at 11. -/
theorem reduceAces_spec (n s : Nat) :
    reduceAces (s + 10 * n) n =
      (s + 10 * min n ((21 - s) / 10), n - min n ((21 - s) / 10)) := by
  induction n generalizing s with
  | zero => simp [reduceAces]
  | succ n ih =>
    simp only [reduceAces]
    split_ifs with h
    · have h1 : s + 10 * (n + 1) - 10 = s + 10 * n := by omega
      rw [h1, ih s]
      simp only [Prod.mk.injEq]
      omega
    · simp only [Prod.mk.injEq]
      omega

/-- The counting fold of `contar_puntos` accumulates the raw sum plus
`10` per ace, and the ace count. -/
theorem contar_fold (mano : List Nat) : ∀ t a,
    mano.foldl (fun (p : Nat × Nat) c =>
        if c = 1 then (p.1 + 11, p.2 + 1) else (p.1 + c, p.2)) (t, a)
      = (t + mano.sum + 10 * mano.count 1, a + mano.count 1) := by
  induction mano with
  | nil => simp
  | cons c tl ih =>
    intro t a
    simp only [List.foldl_cons, List.sum_cons, List.count_cons]
    by_cases h : c = 1
    · subst h
      rw [if_pos rfl, ih]
      simp only [Prod.mk.injEq]
      constructor <;> simp <;> omega
    · rw [if_neg h, ih]
      have hb : (c == 1) = false := by simpa using h
      simp only [Prod.mk.injEq, hb]
      constructor <;> simp <;> omega

/-- Closed form of `contar_puntos`: with raw sum `s = mano.sum` (aces
count 1 in the raw sum) and `a` aces, the total is `s + 10k` and the
hand is soft iff `k > 0`, where `k = min a ((21 - s) / 10)` is the
number of aces the reduction loop leaves at 11. -/
theorem contar_puntos_eq (mano : List Nat) :
    contar_puntos mano =
      (mano.sum + 10 * min (mano.count 1) ((21 - mano.sum) / 10),
       decide (0 < min (mano.count 1) ((21 - mano.sum) / 10))) := by
  unfold contar_puntos
  rw [contar_fold mano 0 0]
  simp only [Nat.zero_add]
  rw [reduceAces_spec (mano.count 1) mano.sum]
  simp only [Prod.mk.injEq]
  constructor
  · trivial
  · rw [decide_eq_decide]
    omega

/-! ## Round-engine lemmas -/

/-- The comparison block keeps both hands, settles into one of the three
comparison outcomes, and scales the base factor by `apuesta_factor`. -/
theorem comparar_spec (f : ℚ) (jugador crupier mazo : List Nat) (i : Nat) :
    (comparar f jugador crupier mazo i).factor
        = settle_base (comparar f jugador crupier mazo i).resultado * f
      ∧ ((comparar f jugador crupier mazo i).resultado = .player
          ∨ (comparar f jugador crupier mazo i).resultado = .dealer
          ∨ (comparar f jugador crupier mazo i).resultado = .push)
      ∧ (comparar f jugador crupier mazo i).jugador = jugador
      ∧ (comparar f jugador crupier mazo i).crupier = crupier := by
  unfold comparar
  dsimp only
  split_ifs <;> simp [settle_base]

/-- The dealer's draw loop only appends cards to the dealer's hand. -/
theorem dealer_turn_extends (s17 : Bool) : ∀ fuel crupier mazo crupier1 mazo1,
    dealer_turn s17 fuel crupier mazo = .ok (crupier1, mazo1) →
    ∃ t, crupier1 = crupier ++ t := by
  intro fuel
  induction fuel with
  | zero => intro c m c1 m1 h; exact absurd h (by simp [dealer_turn])
  | succ fuel ih =>
    intro c m c1 m1 h
    rw [dealer_turn] at h
    split_ifs at h
    · cases htc : tomar_carta m with
      | error e => rw [htc] at h; cases h
      | ok p =>
        rw [htc] at h
        obtain ⟨t, ht⟩ := ih (c ++ [p.1]) p.2 c1 m1 h
        exact ⟨[p.1] ++ t, by simp [ht]⟩
    · cases h
      exact ⟨[], by simp⟩

/-- The player's hit loop only appends cards to the player's hand. -/
theorem player_hits_extends (limite : Nat) : ∀ fuel jugador mazo jugador1 mazo1 b,
    player_hits limite fuel jugador mazo = .ok (jugador1, mazo1, b) →
    ∃ t, jugador1 = jugador ++ t := by
  intro fuel
  induction fuel with
  | zero => intro j m j1 m1 b h; exact absurd h (by simp [player_hits])
  | succ fuel ih =>
    intro j m j1 m1 b h
    rw [player_hits] at h
    split_ifs at h
    · cases htc : tomar_carta m with
      | error e => rw [htc] at h; cases h
      | ok p =>
        rw [htc] at h
        simp only at h
        split_ifs at h
        · cases h
          exact ⟨[p.1], rfl⟩
        · obtain ⟨t, ht⟩ := ih (j ++ [p.1]) p.2 j1 m1 b h
          exact ⟨[p.1] ++ t, by simp [ht]⟩
    · cases h
      exact ⟨[], by simp⟩

/-- After the player's hand is final, a successful round keeps the
player's hand, extends the dealer's, lands in a comparison outcome and
returns `settle_base`-times-`apuesta_factor` as factor. -/
theorem despues_spec (f : ℚ) (s17 : Bool) (jugador crupier mazo : List Nat) (i : Nat)
    (r : ManoResult) (h : despues_del_jugador f s17 jugador crupier mazo i = .ok r) :
    r.factor = settle_base r.resultado * f
      ∧ (r.resultado = .player ∨ r.resultado = .dealer ∨ r.resultado = .push)
      ∧ r.jugador = jugador
      ∧ (∃ t, r.crupier = crupier ++ t) := by
  unfold despues_del_jugador at h
  split_ifs at h
  · cases hdt : dealer_turn s17 (mazo.length + 1) crupier mazo with
    | error e => rw [hdt] at h; cases h
    | ok p =>
      rw [hdt] at h
      cases h
      obtain ⟨t, ht⟩ := dealer_turn_extends s17 (mazo.length + 1) crupier mazo p.1 p.2
        (by rw [hdt])
      obtain ⟨h1, h2, h3, h4⟩ := comparar_spec f jugador p.1 p.2 i
      exact ⟨h1, h2, h3, ⟨t, by rw [h4, ht]⟩⟩
  · cases h
    obtain ⟨h1, h2, h3, h4⟩ := comparar_spec f jugador crupier mazo i
    exact ⟨h1, h2, h3, ⟨[], by simp [h4]⟩⟩

/-- The deal of `jugar_mano_basica`: when the ensured shoe is
`rest ++ [d, c, b, a]`, the four pops give the player `[a, b]` and the
dealer `[c, d]` (two to the player first, then two to the dealer), and
the round continues on `rest`. -/
theorem jugar_deal (sh : Shuffler) (mazo0 : Option (List Nat))
    (n_barajas limite : Nat) (s17 dbl srr auto : Bool) (thr i0 : Nat)
    (rest : List Nat) (a b c d : Nat) (j : Nat)
    (hens : ensure_mazo sh mazo0 n_barajas thr i0 = (rest ++ [d, c, b, a], j)) :
    jugar_mano_basica sh mazo0 n_barajas limite s17 dbl srr auto thr i0
      = jugar_tras_reparto limite s17 dbl srr auto [a, b] [c, d] rest j := by
  have h1 : rest ++ [d, c, b, a] = ((rest ++ [d] ++ [c]) ++ [b]) ++ [a] := by simp
  unfold jugar_mano_basica
  rw [hens, h1]
  simp only [tomar_carta_concat]

/-- A successful `jugar_mano_basica` factors through some successful
`jugar_tras_reparto` with the same rule toggles. -/
theorem jugar_ok_inv (sh : Shuffler) (mazo0 : Option (List Nat))
    (n_barajas limite : Nat) (s17 dbl srr auto : Bool) (thr i0 : Nat)
    (r : ManoResult)
    (h : jugar_mano_basica sh mazo0 n_barajas limite s17 dbl srr auto thr i0 = .ok r) :
    ∃ jug cru m i, jugar_tras_reparto limite s17 dbl srr auto jug cru m i = .ok r := by
  unfold jugar_mano_basica at h
  rcases hens : ensure_mazo sh mazo0 n_barajas thr i0 with ⟨mazo, i⟩
  rw [hens] at h
  dsimp only at h
  cases h1 : tomar_carta mazo with
  | error e => rw [h1] at h; cases h
  | ok p1 =>
    obtain ⟨c1, m1⟩ := p1
    rw [h1] at h
    dsimp only at h
    cases h2 : tomar_carta m1 with
    | error e => rw [h2] at h; cases h
    | ok p2 =>
      obtain ⟨c2, m2⟩ := p2
      rw [h2] at h
      dsimp only at h
      cases h3 : tomar_carta m2 with
      | error e => rw [h3] at h; cases h
      | ok p3 =>
        obtain ⟨c3, m3⟩ := p3
        rw [h3] at h
        dsimp only at h
        cases h4 : tomar_carta m3 with
        | error e => rw [h4] at h; cases h
        | ok p4 =>
          obtain ⟨c4, m4⟩ := p4
          rw [h4] at h
          dsimp only at h
          exact ⟨[c1, c2], [c3, c4], m4, i, h⟩

/-- An `if` on a false boolean guard takes the else branch. -/
theorem false_guard {α : Sort _} (a b : α) :
    (if (false : Bool) = true then a else b) = b := by simp

/-- With double down disabled, every payout factor a successful round
can settle lies between `-1` (a lost stake) and `3/2` (a natural). -/
theorem tras_factor_bound (limite : Nat) (s17 srr auto : Bool)
    (jugador crupier mazo : List Nat) (i : Nat) (r : ManoResult)
    (h : jugar_tras_reparto limite s17 false srr auto jugador crupier mazo i = .ok r) :
    -1 ≤ r.factor ∧ r.factor ≤ 3 / 2 := by
  unfold jugar_tras_reparto at h
  simp only [Bool.false_and, false_guard] at h
  split_ifs at h <;> try (cases h; constructor <;> norm_num)
  · -- the non-doubled hit path
    cases hph : player_hits limite (mazo.length + 1) jugador mazo with
    | error e => rw [hph] at h; cases h
    | ok p =>
      rw [hph] at h
      simp only at h
      split_ifs at h with hb
      · cases h
        constructor <;> norm_num
      · obtain ⟨h1, h2, -, -⟩ := despues_spec 1 s17 p.1 crupier p.2.1 i r h
        rcases h2 with h2 | h2 | h2 <;> rw [h1, h2] <;> simp [settle_base] <;> norm_num

/-- A successful round only appends cards to the dealt hands: the final
hands extend the initial two-card hands. -/
theorem tras_hands (limite : Nat) (s17 dbl srr auto : Bool)
    (jugador crupier mazo : List Nat) (i : Nat) (r : ManoResult)
    (h : jugar_tras_reparto limite s17 dbl srr auto jugador crupier mazo i = .ok r) :
    (∃ t, r.jugador = jugador ++ t) ∧ (∃ t, r.crupier = crupier ++ t) := by
  unfold jugar_tras_reparto at h
  dsimp only at h
  by_cases hbj : (es_blackjack jugador || es_blackjack crupier) = true
  · rw [if_pos hbj] at h
    split_ifs at h <;> (cases h; exact ⟨⟨[], by simp⟩, ⟨[], by simp⟩⟩)
  · rw [if_neg hbj] at h
    by_cases hsur : (srr && auto && ((contar_puntos jugador).1 == 16)
        && (crupier.headI == 10)) = true
    · rw [if_pos hsur] at h
      cases h
      exact ⟨⟨[], by simp⟩, ⟨[], by simp⟩⟩
    · rw [if_neg hsur] at h
      by_cases hdbl : (dbl && auto && ((contar_puntos jugador).1 == 9
          || (contar_puntos jugador).1 == 10 || (contar_puntos jugador).1 == 11)) = true
      · rw [if_pos hdbl] at h
        cases htc : tomar_carta mazo with
        | error e => rw [htc] at h; cases h
        | ok p =>
          obtain ⟨carta, mazo1⟩ := p
          rw [htc] at h
          dsimp only at h
          split_ifs at h
          · cases h
            exact ⟨⟨[carta], rfl⟩, ⟨[], by simp⟩⟩
          · obtain ⟨-, -, hj, hc⟩ := despues_spec 2 s17 (jugador ++ [carta]) crupier mazo1 i r h
            exact ⟨⟨[carta], hj⟩, hc⟩
      · rw [if_neg hdbl] at h
        cases hph : player_hits limite (mazo.length + 1) jugador mazo with
        | error e => rw [hph] at h; cases h
        | ok p =>
          obtain ⟨jugador1, mazo1, busted⟩ := p
          rw [hph] at h
          dsimp only at h
          obtain ⟨t, ht⟩ := player_hits_extends limite (mazo.length + 1) jugador mazo
            jugador1 mazo1 busted (by rw [hph])
          split_ifs at h
          · cases h
            exact ⟨⟨t, ht⟩, ⟨[], by simp⟩⟩
          · obtain ⟨-, -, hj, hc⟩ := despues_spec 1 s17 jugador1 crupier mazo1 i r h
            exact ⟨⟨t, by rw [hj, ht]⟩, hc⟩

/-- Factor bounds lifted to `jugar_mano_basica` (double down disabled). -/
theorem jugar_factor_bound (sh : Shuffler) (mazo0 : Option (List Nat))
    (n_barajas limite : Nat) (s17 srr auto : Bool) (thr i0 : Nat) (r : ManoResult)
    (h : jugar_mano_basica sh mazo0 n_barajas limite s17 false srr auto thr i0 = .ok r) :
    -1 ≤ r.factor ∧ r.factor ≤ 3 / 2 := by
  obtain ⟨jug, cru, m, i, h1⟩ := jugar_ok_inv sh mazo0 n_barajas limite s17 false srr auto thr i0 r h
  exact tras_factor_bound limite s17 srr auto jug cru m i r h1

/-! ## Betting-layer lemmas -/

/-- A successful `apuesta_con_opciones` call: the bet it used, and the
bankroll update `dinero_total + bet × factor` applied to the factor of
the underlying round. -/
theorem apuesta_ok_spec (sh : Shuffler) (mazo : Option (List Nat))
    (n_barajas limite : Nat) (dinero_total dinero_apostado : ℚ)
    (s17 dbl srr : Bool) (strat : String) (last_bet : Option ℚ) (thr i : Nat)
    (r : ApuestaResult)
    (h : apuesta_con_opciones sh mazo n_barajas limite dinero_total dinero_apostado
          s17 dbl srr strat last_bet thr i = .ok r) :
    r.bet = last_bet.elim dinero_apostado
              (fun lb => if strat = "martingale" then lb else dinero_apostado)
      ∧ ∃ m, jugar_mano_basica sh mazo n_barajas limite s17 dbl srr true thr i = .ok m
          ∧ r.dinero = (if 0 < m.factor then dinero_total + r.bet * m.factor
                        else if m.factor < 0 then dinero_total + r.bet * m.factor
                        else dinero_total)
          ∧ r.mazo = m.mazo ∧ r.resultado = m.resultado ∧ r.jugador = m.jugador
          ∧ r.crupier = m.crupier ∧ r.rngIdx = m.rngIdx := by
  unfold apuesta_con_opciones at h
  dsimp only at h
  cases hj : jugar_mano_basica sh mazo n_barajas limite s17 dbl srr true thr i with
  | error e => rw [hj] at h; cases h
  | ok m =>
    rw [hj] at h
    dsimp only at h
    cases h
    refine ⟨?_, m, rfl, rfl, rfl, rfl, rfl, rfl, rfl⟩
    cases last_bet <;> rfl

/-- One `ruina_del_jugador` iteration appends the new bankroll to the
history and counts the round. -/
theorem ruina_step_shape (sh : Shuffler) (cfg : SimCfg) (s s1 : SimState)
    (h : ruina_step sh cfg s = .ok s1) :
    s1.evolucion = s.evolucion ++ [s1.dinero] ∧ s1.rondas = s.rondas + 1 := by
  unfold ruina_step at h
  dsimp only at h
  cases ha : apuesta_con_opciones sh (some s.mazo) cfg.n_barajas cfg.limite_jugador
      s.dinero (if s.dinero < s.current_bet then s.dinero else s.current_bet)
      cfg.stand_on_soft17 cfg.allow_double cfg.allow_surrender
      cfg.betting_strategy (some (if s.dinero < s.current_bet then s.dinero else s.current_bet))
      cfg.reshuffle_threshold s.rngIdx with
  | error e => rw [ha] at h; cases h
  | ok r =>
    rw [ha] at h
    dsimp only at h
    cases h
    exact ⟨rfl, rfl⟩

/-- One loop iteration preserves the bankroll invariants: the bankroll
stays nonnegative (double down disabled, so a loss costs at most the
capped bet) and the bet stays positive while money remains. -/
theorem ruina_step_nonneg (sh : Shuffler) (cfg : SimCfg) (s s1 : SimState)
    (hdb : cfg.allow_double = false) (hbb : 0 < cfg.base_bet)
    (hd : 0 < s.dinero) (hcb : 0 < s.current_bet)
    (h : ruina_step sh cfg s = .ok s1) :
    0 ≤ s1.dinero ∧ (0 < s1.dinero → 0 < s1.current_bet) := by
  unfold ruina_step at h
  dsimp only at h
  set cb := (if s.dinero < s.current_bet then s.dinero else s.current_bet) with hcb_def
  have hcb_pos : 0 < cb := by
    rw [hcb_def]; split_ifs <;> assumption
  have hcb_le : cb ≤ s.dinero := by
    rw [hcb_def]; split_ifs with hlt
    · exact le_refl _
    · exact le_of_not_lt hlt
  cases ha : apuesta_con_opciones sh (some s.mazo) cfg.n_barajas cfg.limite_jugador
      s.dinero cb cfg.stand_on_soft17 cfg.allow_double cfg.allow_surrender
      cfg.betting_strategy (some cb) cfg.reshuffle_threshold s.rngIdx with
  | error e => rw [ha] at h; cases h
  | ok r =>
    rw [ha] at h
    dsimp only at h
    obtain ⟨hbet, m, hj, hdin, -⟩ := apuesta_ok_spec sh (some s.mazo) cfg.n_barajas
      cfg.limite_jugador s.dinero cb cfg.stand_on_soft17 cfg.allow_double
      cfg.allow_surrender cfg.betting_strategy (some cb) cfg.reshuffle_threshold
      s.rngIdx r ha
    have hbet_cb : r.bet = cb := by
      rw [hbet]; split_ifs <;> rfl
    rw [hdb] at hj
    obtain ⟨hf1, -⟩ := jugar_factor_bound sh (some s.mazo) cfg.n_barajas
      cfg.limite_jugador cfg.stand_on_soft17 cfg.allow_surrender true
      cfg.reshuffle_threshold s.rngIdx m hj
    have hr_dinero : 0 ≤ r.dinero := by
      rw [hdin, hbet_cb]
      split_ifs with hpos hneg
      · nlinarith
      · nlinarith
      · linarith
    cases h
    refine ⟨hr_dinero, ?_⟩
    intro hpos1
    dsimp only at hpos1 ⊢
    split_ifs with hmart hdrop
    · exact lt_min (by linarith) hpos1
    · exact hbb
    · exact hcb_pos

/-- Invariants of the `ruina_del_jugador` loop (double down disabled):
the history grows one entry per round, keeps its head, stays
nonnegative, ends with the current bankroll, and the loop exits only at
bankroll `0` or at the round cap. -/
theorem ruina_loop_invariant (sh : Shuffler) (cfg : SimCfg)
    (hdb : cfg.allow_double = false) (hbb : 0 < cfg.base_bet) (h0 : ℚ) :
    ∀ fuel s sF, cfg.max_rondas ≤ s.rondas + fuel → s.rondas ≤ cfg.max_rondas →
      0 ≤ s.dinero → (0 < s.dinero → 0 < s.current_bet) →
      s.evolucion.length = s.rondas + 1 → s.evolucion.head? = some h0 →
      (∀ x ∈ s.evolucion, 0 ≤ x) → s.evolucion.getLast? = some s.dinero →
      ruina_loop sh cfg fuel s = .ok sF →
      sF.evolucion.length = sF.rondas + 1 ∧ sF.evolucion.head? = some h0
        ∧ (∀ x ∈ sF.evolucion, 0 ≤ x) ∧ sF.evolucion.getLast? = some sF.dinero
        ∧ 0 ≤ sF.dinero ∧ sF.rondas ≤ cfg.max_rondas
        ∧ (sF.dinero = 0 ∨ sF.rondas = cfg.max_rondas) := by
  intro fuel
  induction fuel with
  | zero =>
    intro s sF hfu hrm hd hcb hlen hhd hnn hlast h
    rw [ruina_loop] at h
    cases h
    exact ⟨hlen, hhd, hnn, hlast, hd, hrm, Or.inr (by omega)⟩
  | succ fuel ih =>
    intro s sF hfu hrm hd hcb hlen hhd hnn hlast h
    rw [ruina_loop] at h
    split_ifs at h with hcond
    · obtain ⟨hdpos, hrlt⟩ := hcond
      cases hstep : ruina_step sh cfg s with
      | error e => rw [hstep] at h; cases h
      | ok s1 =>
        rw [hstep] at h
        obtain ⟨hev, hro⟩ := ruina_step_shape sh cfg s s1 hstep
        obtain ⟨hd1, hcb1⟩ := ruina_step_nonneg sh cfg s s1 hdb hbb hdpos (hcb hdpos) hstep
        have hne : s.evolucion ≠ [] := by
          intro hcontra
          rw [hcontra] at hlen
          simp at hlen
        refine ih s1 sF (by omega) (by omega) hd1 hcb1 ?_ ?_ ?_ ?_ h
        · rw [hev, hro]
          simp [hlen]
        · rw [hev]
          rw [List.head?_append_of_ne_nil _ hne]
          exact hhd
        · intro x hx
          rw [hev] at hx
          rcases List.mem_append.mp hx with hx | hx
          · exact hnn x hx
          · simp at hx
            rw [hx]
            exact hd1
        · rw [hev]
          simp
    · cases h
      refine ⟨hlen, hhd, hnn, hlast, hd, hrm, ?_⟩
      rcases not_and_or.mp hcond with hc | hc
      · left
        linarith [le_of_not_lt hc]
      · right
        omega

/-! ## Claim theorems -/

/-- C4: `contar_puntos` counts every ace as 11 and then reduces aces one
at a time (10 each) while the total exceeds 21; in closed form the total
is the raw sum (aces as 1) plus `10` for each of the
`min aces ((21 - raw) / 10)` aces left at 11, and the hand is soft iff
that count is positive.  Consequently `(A,A)` totals a soft 12, and any
hand whose raw sum is at most 21 (in particular one containing an ace)
totals at most 21. -/
theorem contar_puntos_spec (mano : List Nat) :
    contar_puntos mano =
      (mano.sum + 10 * min (mano.count 1) ((21 - mano.sum) / 10),
       decide (0 < min (mano.count 1) ((21 - mano.sum) / 10)))
    ∧ (1 ∈ mano → mano.sum ≤ 21 → (contar_puntos mano).1 ≤ 21)
    ∧ contar_puntos [1, 1] = (12, true) := by
  refine ⟨contar_puntos_eq mano, ?_, by decide⟩
  intro hmem hs
  rw [contar_puntos_eq mano]
  dsimp only
  omega

/-- Witness for C4 at the hand `[1, 9]` (a soft 20). -/
theorem contar_puntos_spec_witness :
    contar_puntos [1, 9] = (20, true) ∧ (contar_puntos [1, 9]).1 ≤ 21 :=
  ⟨by decide, (contar_puntos_spec [1, 9]).2.1 (by decide) (by decide)⟩

/-- C3 counterexample: on a fixed shoe whose first four draws are
10, 9, 8, 10 the player's hand is `[10, 9]` — the 1st and 2nd cards
drawn — not `[10, 8]` (the 1st and 3rd) as the claimed
player-dealer-player-dealer alternation would give. -/
theorem jugar_reparto_alternado_cex :
    jugar_mano_basica shuffler0 (some mazoOrden) 1 17 true true true true 15 0
      = .ok ⟨.player, 1, [10, 9], [8, 10], List.replicate 11 2, 0⟩
    ∧ ([10, 9] : List Nat) ≠ [10, 8] := by
  exact ⟨by decide, by decide⟩

/-- C3 amended: `jugar_mano_basica` deals the player's two cards first
and then the dealer's two: under a fixed shoe order the player's hand
holds the 1st and 2nd cards drawn and the dealer's hand the 3rd and
4th. -/
theorem jugar_reparto_orden (sh : Shuffler) (mazo0 : Option (List Nat))
    (n_barajas limite : Nat) (s17 dbl srr auto : Bool) (thr i0 : Nat)
    (rest : List Nat) (a b c d : Nat) (j : Nat) (r : ManoResult)
    (hens : ensure_mazo sh mazo0 n_barajas thr i0 = (rest ++ [d, c, b, a], j))
    (hok : jugar_mano_basica sh mazo0 n_barajas limite s17 dbl srr auto thr i0 = .ok r) :
    r.jugador.take 2 = [a, b] ∧ r.crupier.take 2 = [c, d] := by
  rw [jugar_deal sh mazo0 n_barajas limite s17 dbl srr auto thr i0 rest a b c d j hens] at hok
  obtain ⟨⟨t1, ht1⟩, t2, ht2⟩ := tras_hands limite s17 dbl srr auto [a, b] [c, d] rest j r hok
  rw [ht1, ht2]
  exact ⟨rfl, rfl⟩

/-- Witness for C3 (amended) on the `mazoOrden` shoe. -/
theorem jugar_reparto_orden_witness :
    (⟨.player, 1, [10, 9], [8, 10], List.replicate 11 2, 0⟩ : ManoResult).jugador.take 2 = [10, 9]
    ∧ (⟨.player, 1, [10, 9], [8, 10], List.replicate 11 2, 0⟩ : ManoResult).crupier.take 2 = [8, 10] :=
  jugar_reparto_orden shuffler0 (some mazoOrden) 1 17 true true true true 15 0
    (List.replicate 11 2) 10 9 8 10 0
    ⟨.player, 1, [10, 9], [8, 10], List.replicate 11 2, 0⟩ (by decide) (by decide)

/-- C8: if either dealt hand is a natural, the round resolves
immediately with both hands still holding exactly their two dealt cards
and the rest of the shoe untouched: both naturals push with factor `0`,
a lone player natural pays `3/2`, a lone dealer natural costs `-1`. -/
theorem naturales_inmediato (sh : Shuffler) (mazo0 : Option (List Nat))
    (n_barajas limite : Nat) (s17 dbl srr auto : Bool) (thr i0 : Nat)
    (rest : List Nat) (a b c d : Nat) (j : Nat)
    (hens : ensure_mazo sh mazo0 n_barajas thr i0 = (rest ++ [d, c, b, a], j))
    (hbj : (es_blackjack [a, b] || es_blackjack [c, d]) = true) :
    jugar_mano_basica sh mazo0 n_barajas limite s17 dbl srr auto thr i0 =
      .ok ⟨(if es_blackjack [a, b] && es_blackjack [c, d] then .push
            else if es_blackjack [a, b] then .player_blackjack else .dealer),
           (if es_blackjack [a, b] && es_blackjack [c, d] then 0
            else if es_blackjack [a, b] then 3 / 2 else -1),
           [a, b], [c, d], rest, j⟩ := by
  rw [jugar_deal sh mazo0 n_barajas limite s17 dbl srr auto thr i0 rest a b c d j hens]
  unfold jugar_tras_reparto
  rw [if_pos hbj]
  split_ifs <;> rfl

/-- Witness for C8 on `mazoNat`: both hands are naturals (`[1, 10]` and
`[10, 1]`), so the round pushes at factor `0` without drawing. -/
theorem naturales_inmediato_witness :
    jugar_mano_basica shuffler0 (some mazoNat) 1 17 true true true true 15 0
      = .ok ⟨.push, 0, [1, 10], [10, 1], List.replicate 11 3, 0⟩ :=
  (naturales_inmediato shuffler0 (some mazoNat) 1 17 true true true true 15 0
    (List.replicate 11 3) 1 10 10 1 0 (by decide) (by decide)).trans (by decide)

/-- C2 refuted: `ensure_mazo` with the default threshold 15 does NOT
make the empty-shoe branch of `tomar_carta` unreachable inside
`jugar_mano_basica`.  A 15-card shoe of aces (a sub-multiset of the
four-deck shoe) passes the threshold check unchanged, yet with
stand-limit 21 the round needs 16 cards: the player draws to eleven
aces (soft 21) and the dealer, at 14 after the last two cards, must hit
below 17 and finds the shoe empty. -/
theorem umbral_reshuffle_insuficiente :
    jugar_mano_basica shuffler0 (some mazoAses) 4 21 true true true true 15 0
      = .error "El mazo está vacío. Asegúrate de reshuffle antes de tomar." := by
  decide

/-- C7: with surrender allowed in automated play, no natural dealt, a
player total of exactly 16 and a ten as the dealer's face-up card, the
round ends at once as a surrender with factor `-1/2`, both hands still
two cards and the shoe untouched; applying the factor to the wager
deducts exactly half the bet from the bankroll. -/
theorem rendicion_temprana (sh : Shuffler) (mazo0 : Option (List Nat))
    (n_barajas limite : Nat) (s17 dbl : Bool) (thr i0 : Nat)
    (rest : List Nat) (a b c d : Nat) (j : Nat)
    (dinero_total dinero_apostado : ℚ) (strat : String) (lb : Option ℚ)
    (r : ApuestaResult)
    (hens : ensure_mazo sh mazo0 n_barajas thr i0 = (rest ++ [d, c, b, a], j))
    (hbj1 : es_blackjack [a, b] = false) (hbj2 : es_blackjack [c, d] = false)
    (h16 : (contar_puntos [a, b]).1 = 16) (hup : c = 10)
    (hap : apuesta_con_opciones sh mazo0 n_barajas limite dinero_total dinero_apostado
            s17 dbl true strat lb thr i0 = .ok r) :
    jugar_mano_basica sh mazo0 n_barajas limite s17 dbl true true thr i0
        = .ok ⟨.surrender, -(1 / 2), [a, b], [c, d], rest, j⟩
      ∧ r.dinero = dinero_total - r.bet * (1 / 2) ∧ r.resultado = .surrender := by
  have hjug : jugar_mano_basica sh mazo0 n_barajas limite s17 dbl true true thr i0
      = .ok ⟨.surrender, -(1 / 2), [a, b], [c, d], rest, j⟩ := by
    rw [jugar_deal sh mazo0 n_barajas limite s17 dbl true true thr i0 rest a b c d j hens]
    unfold jugar_tras_reparto
    rw [if_neg (by simp [hbj1, hbj2])]
    dsimp only
    rw [if_pos (by simp [h16, hup, List.headI])]
  refine ⟨hjug, ?_, ?_⟩
  · obtain ⟨-, m, hm, hdin, -, -, -, -, -⟩ := apuesta_ok_spec sh mazo0 n_barajas limite
      dinero_total dinero_apostado s17 dbl true strat lb thr i0 r hap
    rw [hjug] at hm
    cases hm
    rw [hdin]
    norm_num
    ring
  · obtain ⟨-, m, hm, -, -, hres, -⟩ := apuesta_ok_spec sh mazo0 n_barajas limite
      dinero_total dinero_apostado s17 dbl true strat lb thr i0 r hap
    rw [hjug] at hm
    cases hm
    exact hres

/-- Witness for C7 on `mazoRinde` (player `[10, 6]`, dealer shows 10):
a 100 bankroll with a 10 bet surrenders down to exactly 95. -/
theorem rendicion_temprana_witness :
    jugar_mano_basica shuffler0 (some mazoRinde) 1 17 true true true true 15 0
        = .ok ⟨.surrender, -(1 / 2), [10, 6], [10, 8], List.replicate 11 3, 0⟩
      ∧ (⟨95, List.replicate 11 3, 10, .surrender, [10, 6], [10, 8], 0⟩ : ApuestaResult).dinero
          = 100 - (⟨95, List.replicate 11 3, 10, .surrender, [10, 6], [10, 8], 0⟩ : ApuestaResult).bet * (1 / 2)
      ∧ (⟨95, List.replicate 11 3, 10, .surrender, [10, 6], [10, 8], 0⟩ : ApuestaResult).resultado
          = .surrender :=
  rendicion_temprana shuffler0 (some mazoRinde) 1 17 true true 15 0
    (List.replicate 11 3) 10 6 10 8 0 100 10 "fixed" none
    ⟨95, List.replicate 11 3, 10, .surrender, [10, 6], [10, 8], 0⟩
    (by decide) (by decide) (by decide) (by decide) (by decide) (by decide)

/-- C6: with double down allowed in automated play, no natural dealt and
a two-card player total of 9, 10 or 11 (so surrender, which needs 16,
never applies), the player doubles: the payout multiplier becomes 2,
exactly one card `e` is drawn and no more.  If the three-card total
busts, the round is an immediate dealer win at factor `-2`; otherwise
the dealer plays and the settled factor is exactly twice the undoubled
base factor of the comparison outcome. -/
theorem doblar_apuesta (sh : Shuffler) (mazo0 : Option (List Nat))
    (n_barajas limite : Nat) (s17 srr : Bool) (thr i0 : Nat)
    (rest : List Nat) (a b c d e : Nat) (j : Nat)
    (hens : ensure_mazo sh mazo0 n_barajas thr i0 = (rest ++ [e, d, c, b, a], j))
    (hbj1 : es_blackjack [a, b] = false) (hbj2 : es_blackjack [c, d] = false)
    (h911 : (contar_puntos [a, b]).1 = 9 ∨ (contar_puntos [a, b]).1 = 10
        ∨ (contar_puntos [a, b]).1 = 11) :
    (21 < (contar_puntos [a, b, e]).1 →
      jugar_mano_basica sh mazo0 n_barajas limite s17 true srr true thr i0
        = .ok ⟨.dealer, -1 * 2, [a, b, e], [c, d], rest, j⟩)
    ∧ ((contar_puntos [a, b, e]).1 ≤ 21 →
      ∀ r, jugar_mano_basica sh mazo0 n_barajas limite s17 true srr true thr i0 = .ok r →
        r.jugador = [a, b, e] ∧ r.crupier.take 2 = [c, d]
          ∧ (r.resultado = .player ∨ r.resultado = .dealer ∨ r.resultado = .push)
          ∧ r.factor = 2 * settle_base r.resultado)
    ∧ ((-1 : ℚ) * 2 = -2) := by
  have hens5 : ensure_mazo sh mazo0 n_barajas thr i0 = ((rest ++ [e]) ++ [d, c, b, a], j) := by
    rw [hens]
    simp
  have hdeal := jugar_deal sh mazo0 n_barajas limite s17 true srr true thr i0
    (rest ++ [e]) a b c d j hens5
  have hsur : (srr && true && ((contar_puntos [a, b]).1 == 16)
      && (([c, d] : List Nat).headI == 10)) = false := by
    rcases h911 with h9 | h9 | h9 <;> rw [h9] <;> simp
  have hdbl : (true && true && ((contar_puntos [a, b]).1 == 9
      || (contar_puntos [a, b]).1 == 10 || (contar_puntos [a, b]).1 == 11)) = true := by
    rcases h911 with h9 | h9 | h9 <;> rw [h9] <;> rfl
  have hexp : jugar_mano_basica sh mazo0 n_barajas limite s17 true srr true thr i0
      = (if 21 < (contar_puntos ([a, b] ++ [e])).1 then
          .ok ⟨.dealer, -1 * 2, [a, b] ++ [e], [c, d], rest, j⟩
         else despues_del_jugador 2 s17 ([a, b] ++ [e]) [c, d] rest j) := by
    rw [hdeal]
    unfold jugar_tras_reparto
    rw [if_neg (by simp [hbj1, hbj2])]
    dsimp only
    rw [if_neg (by rw [hsur]; exact Bool.false_ne_true), if_pos hdbl,
      tomar_carta_concat rest e]
  refine ⟨?_, ?_, by norm_num⟩
  · intro hbust
    rw [hexp, if_pos (by simpa using hbust)]
    rfl
  · intro hnb r hr
    rw [hexp, if_neg (by simpa using not_lt.mpr hnb)] at hr
    obtain ⟨hfac, hres, hjug, t, hcru⟩ := despues_spec 2 s17 ([a, b] ++ [e]) [c, d] rest j r hr
    refine ⟨by simpa using hjug, by rw [hcru]; rfl, hres, ?_⟩
    rw [hfac]
    ring

/-- Witness for C6 on `mazoDobla`: the player's 11 doubles into 21
against a dealer 19 and wins exactly twice the base factor. -/
theorem doblar_apuesta_witness :
    (⟨.player, 1 * 2, [5, 6, 10], [10, 9], List.replicate 10 3, 0⟩ : ManoResult).jugador
        = [5, 6, 10]
      ∧ (⟨.player, 1 * 2, [5, 6, 10], [10, 9], List.replicate 10 3, 0⟩ : ManoResult).crupier.take 2
        = [10, 9]
      ∧ ((⟨.player, 1 * 2, [5, 6, 10], [10, 9], List.replicate 10 3, 0⟩ : ManoResult).resultado = .player
        ∨ (⟨.player, 1 * 2, [5, 6, 10], [10, 9], List.replicate 10 3, 0⟩ : ManoResult).resultado = .dealer
        ∨ (⟨.player, 1 * 2, [5, 6, 10], [10, 9], List.replicate 10 3, 0⟩ : ManoResult).resultado = .push)
      ∧ (⟨.player, 1 * 2, [5, 6, 10], [10, 9], List.replicate 10 3, 0⟩ : ManoResult).factor
        = 2 * settle_base (⟨.player, 1 * 2, [5, 6, 10], [10, 9], List.replicate 10 3, 0⟩ : ManoResult).resultado :=
  (doblar_apuesta shuffler0 (some mazoDobla) 1 17 true true 15 0
    (List.replicate 10 3) 5 6 10 9 10 0 (by decide) (by decide) (by decide)
    (by decide)).2.1 (by decide)
    ⟨.player, 1 * 2, [5, 6, 10], [10, 9], List.replicate 10 3, 0⟩ (by decide)

/-- The bet cap of the simulation loop is the minimum of the running bet
and the bankroll. -/
theorem cap_eq_min (c d : ℚ) : (if d < c then d else c) = min c d := by
  rw [min_comm, min_def]
  split_ifs <;> linarith

/-- C5: under the Martingale strategy, one simulation round that lowered
the bankroll sets the next bet to `min (bet_used * 2) newBankroll`,
while a round that kept or raised it resets the next bet to the base
bet; the bet used is the running bet capped at the bankroll. -/
theorem martingala_actualiza (sh : Shuffler) (cfg : SimCfg) (s s1 : SimState)
    (r : ApuestaResult)
    (hstrat : cfg.betting_strategy = "martingale")
    (hstep : ruina_step sh cfg s = .ok s1)
    (hap : apuesta_con_opciones sh (some s.mazo) cfg.n_barajas cfg.limite_jugador
        s.dinero (if s.dinero < s.current_bet then s.dinero else s.current_bet)
        cfg.stand_on_soft17 cfg.allow_double cfg.allow_surrender cfg.betting_strategy
        (some (if s.dinero < s.current_bet then s.dinero else s.current_bet))
        cfg.reshuffle_threshold s.rngIdx = .ok r) :
    r.bet = min s.current_bet s.dinero
      ∧ s1.dinero = r.dinero
      ∧ (r.dinero < s.dinero → s1.current_bet = min (r.bet * 2) r.dinero)
      ∧ (s.dinero ≤ r.dinero → s1.current_bet = cfg.base_bet) := by
  have hbet : r.bet = min s.current_bet s.dinero := by
    obtain ⟨hb, -⟩ := apuesta_ok_spec sh (some s.mazo) cfg.n_barajas cfg.limite_jugador
      s.dinero (if s.dinero < s.current_bet then s.dinero else s.current_bet)
      cfg.stand_on_soft17 cfg.allow_double cfg.allow_surrender cfg.betting_strategy
      (some (if s.dinero < s.current_bet then s.dinero else s.current_bet))
      cfg.reshuffle_threshold s.rngIdx r hap
    rw [hb, hstrat]
    simp [Option.elim, cap_eq_min]
  unfold ruina_step at hstep
  dsimp only at hstep
  rw [hap] at hstep
  dsimp only at hstep
  rw [hstrat] at hstep
  rw [if_pos rfl] at hstep
  cases hstep
  refine ⟨hbet, rfl, ?_, ?_⟩
  · intro hdrop
    dsimp only
    rw [if_pos hdrop, hbet, cap_eq_min]
  · intro hup
    dsimp only
    rw [if_neg (not_lt.mpr hup)]

/-- Witness for C5 on `mazoPierde`: a 20 bet loses (bankroll 50 to 30),
so the next bet is `min (20 * 2) 30 = 30`; the capped bet was
`min 20 50 = 20`. -/
theorem martingala_actualiza_witness :
    (⟨30, List.replicate 10 10, 20, .dealer, [10, 6, 10], [10, 9], 1⟩ : ApuestaResult).bet
        = min (⟨mazoPierde, 50, [50], 0, 20, 1⟩ : SimState).current_bet
            (⟨mazoPierde, 50, [50], 0, 20, 1⟩ : SimState).dinero
      ∧ (⟨List.replicate 10 10, 30, [50, 30], 1, 30, 1⟩ : SimState).dinero
        = (⟨30, List.replicate 10 10, 20, .dealer, [10, 6, 10], [10, 9], 1⟩ : ApuestaResult).dinero
      ∧ (⟨List.replicate 10 10, 30, [50, 30], 1, 30, 1⟩ : SimState).current_bet
        = min ((⟨30, List.replicate 10 10, 20, .dealer, [10, 6, 10], [10, 9], 1⟩ : ApuestaResult).bet * 2)
            (⟨30, List.replicate 10 10, 20, .dealer, [10, 6, 10], [10, 9], 1⟩ : ApuestaResult).dinero := by
  obtain ⟨h1, h2, h3, -⟩ := martingala_actualiza shPierde
    ⟨1, 17, 5, true, false, false, "martingale", 15, 10⟩
    ⟨mazoPierde, 50, [50], 0, 20, 1⟩
    ⟨List.replicate 10 10, 30, [50, 30], 1, 30, 1⟩
    ⟨30, List.replicate 10 10, 20, .dealer, [10, 6, 10], [10, 9], 1⟩
    rfl (by decide) (by decide)
  exact ⟨h1, h2, h3 (by decide)⟩

/-- C10: under the fixed strategy the reset-to-base branch never runs:
after any simulation round the running bet equals the previous bet
capped at the previous bankroll, so the bets used are non-increasing
across rounds — once clamped to a diminished bankroll the bet is never
restored to the base bet, even if the bankroll rises again. -/
theorem apuesta_fija_no_restaura (sh : Shuffler) (cfg : SimCfg) (s s1 : SimState)
    (hstrat : cfg.betting_strategy = "fixed")
    (hstep : ruina_step sh cfg s = .ok s1) :
    s1.current_bet = min s.current_bet s.dinero
      ∧ min s1.current_bet s1.dinero ≤ min s.current_bet s.dinero := by
  unfold ruina_step at hstep
  dsimp only at hstep
  cases ha : apuesta_con_opciones sh (some s.mazo) cfg.n_barajas cfg.limite_jugador
      s.dinero (if s.dinero < s.current_bet then s.dinero else s.current_bet)
      cfg.stand_on_soft17 cfg.allow_double cfg.allow_surrender
      cfg.betting_strategy (some (if s.dinero < s.current_bet then s.dinero else s.current_bet))
      cfg.reshuffle_threshold s.rngIdx with
  | error e => rw [ha] at hstep; cases hstep
  | ok r =>
    rw [ha] at hstep
    dsimp only at hstep
    rw [hstrat] at hstep
    rw [if_neg (by decide)] at hstep
    cases hstep
    constructor
    · exact cap_eq_min s.current_bet s.dinero
    · exact le_trans (min_le_left _ _) (le_of_eq (cap_eq_min s.current_bet s.dinero))

/-- Witness for C10 on `mazoOrden`: a bankroll of 5 clamps the 10 bet to
5; the player wins the round (bankroll 10 > base bet region again), yet
the next bet stays at the clamped 5, not the base 10. -/
theorem apuesta_fija_no_restaura_witness :
    (⟨List.replicate 11 2, 10, [5, 10], 1, 5, 1⟩ : SimState).current_bet
        = min (⟨mazoOrden, 5, [5], 0, 10, 1⟩ : SimState).current_bet
            (⟨mazoOrden, 5, [5], 0, 10, 1⟩ : SimState).dinero
      ∧ min (⟨List.replicate 11 2, 10, [5, 10], 1, 5, 1⟩ : SimState).current_bet
            (⟨List.replicate 11 2, 10, [5, 10], 1, 5, 1⟩ : SimState).dinero
        ≤ min (⟨mazoOrden, 5, [5], 0, 10, 1⟩ : SimState).current_bet
            (⟨mazoOrden, 5, [5], 0, 10, 1⟩ : SimState).dinero :=
  apuesta_fija_no_restaura (fun _ => mazoOrden)
    ⟨1, 17, 5, true, false, false, "fixed", 15, 10⟩
    ⟨mazoOrden, 5, [5], 0, 10, 1⟩
    ⟨List.replicate 11 2, 10, [5, 10], 1, 5, 1⟩ rfl (by decide)

/-- C9 refuted: `ruina_del_jugador` performs no range validation and
raises no `ConfigurationError`.  A negative initial bankroll is
accepted and returns the normal one-entry history; a base bet larger
than the bankroll is accepted, silently clamped, and a round IS played
(cards are drawn: the history has two entries). -/
theorem ruina_config_invalida_aceptada :
    ruina_del_jugador shuffler0 1 17 (-5) 10 3 true true true "fixed" 15 = .ok [-5]
    ∧ ruina_del_jugador shDiez 1 17 5 10 1 true true true "fixed" 15 = .ok [5, 5] := by
  exact ⟨by decide, by decide⟩

/-- C9 amended: invalid configurations are never rejected; in
particular any run with a non-positive initial bankroll returns
normally with the single-entry history `[dinero_total]`, and zero
rounds played. -/
theorem ruina_sin_validacion (sh : Shuffler) (n_barajas limite : Nat)
    (dinero_total dinero_apostado : ℚ) (max_rondas : Nat)
    (s17 dbl srr : Bool) (strat : String) (thr : Nat)
    (hd : dinero_total ≤ 0) :
    ruina_del_jugador sh n_barajas limite dinero_total dinero_apostado max_rondas
      s17 dbl srr strat thr = .ok [dinero_total] := by
  unfold ruina_del_jugador
  dsimp only [crear_mazo_partida]
  cases max_rondas with
  | zero => rfl
  | succ n =>
    rw [ruina_loop]
    rw [if_neg (by intro hc; exact absurd hc.1 (not_lt.mpr hd))]

/-- Witness for C9 (amended): a `-3` bankroll plays zero rounds. -/
theorem ruina_sin_validacion_witness :
    ruina_del_jugador shuffler0 1 17 (-3) 10 5 true true true "martingale" 15 = .ok [-3] :=
  ruina_sin_validacion shuffler0 1 17 (-3) 10 5 true true true "martingale" 15 (by norm_num)

/-- C1 refuted: the bankroll CAN go negative.  With bankroll 10 and
base bet 10, the player doubles on an 11 and loses: the capped bet only
bounds the stake, but the `-2` factor of a lost double removes twice
the stake, ending the history at `-10 < 0`. -/
theorem ruina_banca_negativa :
    ruina_del_jugador (fun _ => mazoPierdeDoble) 1 17 10 10 1 true true true "fixed" 15
      = .ok [10, -10]
    ∧ ((-10 : ℚ) < 0) := by
  exact ⟨by decide, by norm_num⟩

/-- C1 amended: with double down disabled (so every losing factor is at
least `-1` and the capped bet bounds the loss), for every valid
configuration a completed simulation returns a history headed by the
initial bankroll, with nonnegative entries throughout, of length
`rounds played + 1` (between `1` and `max_rondas + 1`), whose last
entry is the final bankroll: either exactly `0` (ruin) or the bankroll
standing when `max_rondas` was reached.  (With double down enabled a
doubled loss can push the bankroll below zero, so the original
never-negative claim fails.) -/
theorem ruina_historial (sh : Shuffler) (n_barajas limite : Nat)
    (dinero_total dinero_apostado : ℚ) (max_rondas : Nat)
    (s17 srr : Bool) (strat : String) (thr : Nat) (ev : List ℚ)
    (hd : 0 < dinero_total) (hb : 0 < dinero_apostado) (hba : dinero_apostado ≤ dinero_total)
    (h : ruina_del_jugador sh n_barajas limite dinero_total dinero_apostado max_rondas
          s17 false srr strat thr = .ok ev) :
    ev.head? = some dinero_total ∧ (∀ x ∈ ev, 0 ≤ x)
      ∧ 1 ≤ ev.length ∧ ev.length ≤ max_rondas + 1
      ∧ (ev.getLast? = some 0 ∨ ev.length = max_rondas + 1)
      ∧ ∃ sF, ruina_loop sh
            ⟨n_barajas, limite, max_rondas, s17, false, srr, strat, thr, dinero_apostado⟩
            max_rondas ⟨sh 0, dinero_total, [dinero_total], 0, dinero_apostado, 1⟩ = .ok sF
          ∧ ev = sF.evolucion ∧ ev.length = sF.rondas + 1 := by
  unfold ruina_del_jugador at h
  dsimp only [crear_mazo_partida] at h
  cases hl : ruina_loop sh
      ⟨n_barajas, limite, max_rondas, s17, false, srr, strat, thr, dinero_apostado⟩
      max_rondas ⟨sh 0, dinero_total, [dinero_total], 0, dinero_apostado, 1⟩ with
  | error e => rw [hl] at h; cases h
  | ok sF =>
    rw [hl] at h
    cases h
    obtain ⟨hlen, hhd, hnn, hlast, hdF, hrm, hterm⟩ :=
      ruina_loop_invariant sh
        ⟨n_barajas, limite, max_rondas, s17, false, srr, strat, thr, dinero_apostado⟩
        rfl hb dinero_total max_rondas
        ⟨sh 0, dinero_total, [dinero_total], 0, dinero_apostado, 1⟩ sF
        (by dsimp only; omega) (by dsimp only; omega) (le_of_lt hd) (fun _ => hb) rfl rfl
        (by intro x hx; simp at hx; rw [hx]; exact le_of_lt hd) rfl hl
    dsimp only at hrm hterm
    refine ⟨hhd, hnn, by omega, by omega, ?_, sF, rfl, rfl, hlen⟩
    rcases hterm with hz | hmax
    · left
      rw [hlast, hz]
    · right
      omega

/-- Witness for C1 (amended) on `mazoDiez` with one round: the push
leaves the history `[10, 10]`, whose head is the initial bankroll and
whose length is `max_rondas + 1`. -/
theorem ruina_historial_witness :
    ([10, 10] : List ℚ).head? = some 10
    ∧ (([10, 10] : List ℚ).getLast? = some 0 ∨ ([10, 10] : List ℚ).length = 1 + 1) := by
  obtain ⟨h1, -, -, -, h5, -⟩ := ruina_historial shDiez 1 17 10 10 1 true true "fixed" 15
    [10, 10] (by norm_num) (by norm_num) (by norm_num) (by decide)
  exact ⟨h1, h5⟩

end Blackjack
